import Mathlib

/-!
Verification of the Bhadwa voting-game core (src/app.py).

The room state machine is embedded shallowly:

* A Python dict with string keys is an association list `List (String × α)`
  in insertion order; `lookup` is `dict.get`, `setKey` is `dict[k] = v`
  (update in place, append if absent).
* `random.choice(xs)` is modelled by an oracle index `choice : Nat`,
  selecting `xs[choice % xs.length]`; every element is selected for some
  value of the oracle.
* Fallible endpoints return `Except`; the HTTP error payloads become
  constructors of `CreateError` / `VoteError` (the closed-game payload
  carries the stored `result`, as the JSON body does).
* The `rooms` registry is dropped: every claim under audit is about a
  single room, so operations act on a `Room` directly, entered after the
  `rooms.get(room_id)` lookup succeeded; `RoomNotFound` is that lookup's
  failure and needs no modelling here.
-/

/-- Model of `dict.get key`: first binding of `key` in the association list. -/
def lookup {α : Type} : List (String × α) → String → Option α
  | [], _ => none
  | (k, v) :: rest, key => if k == key then some v else lookup rest key

/-- Model of `dict[key] = val`: replace in place if present, append if absent. -/
def setKey {α : Type} : List (String × α) → String → α → List (String × α)
  | [], key, val => [(key, val)]
  | (k, v) :: rest, key, val =>
    if k == key then (key, val) :: rest else (k, v) :: setKey rest key val

/-- Per-player record: `{"is_bhadwa": bool, "voted_today": bool}`. -/
structure PlayerState where
  is_bhadwa : Bool
  voted_today : Bool
deriving DecidableEq, Repr

/-- Room record (comment block at src/app.py lines 10-17). -/
structure Room where
  players : List (String × PlayerState)
  bhadwa : String
  votes : List (String × Nat)
  game_active : Bool
  result : Option String
deriving DecidableEq, Repr

inductive CreateError where
  | invalidInput
  | invalidPlayerCount
  | duplicatePlayerName
deriving DecidableEq, Repr

inductive VoteError where
  | votingClosed (result : Option String)
  | unknownVoter
  | unknownTarget
  | alreadyVotedToday
deriving DecidableEq, Repr

/-- Embedding of `create_room` (src/app.py lines 53-83), after JSON parsing.
`player_names = none` models a missing field; `not room_id or not
player_names` is the emptiness test on the parsed values; the duplicate
test `len(set(player_names)) != len(player_names)` is `¬ names.Nodup`;
`random.choice(player_names)` is the oracle-indexed element. -/
def create_room (room_id : String) (player_names : Option (List String))
    (choice : Nat) : Except CreateError Room :=
  match player_names with
  | none => .error .invalidInput
  | some names =>
    if room_id = "" ∨ names = [] then .error .invalidInput
    else if names.length < 2 ∨ names.length > 20 then .error .invalidPlayerCount
    else if names.Nodup then
      let bhadwa := names.getD (choice % names.length) ""
      .ok { players := names.map
              (fun n => (n, { is_bhadwa := n == bhadwa, voted_today := false })),
            bhadwa := bhadwa,
            votes := [],
            game_active := true,
            result := none }
    else .error .duplicatePlayerName

/-- Embedding of `max(votes.values())` (src/app.py line 35); over `Nat` the fold from 0
agrees with Python's `max` on every non-empty value list. -/
def max_votes (votes : List (String × Nat)) : Nat :=
  (votes.map Prod.snd).foldl Nat.max 0

/-- Embedding of `candidates = [p for p, v in votes.items() if v == max_votes]`
(src/app.py line 36). -/
def candidates (votes : List (String × Nat)) : List String :=
  (votes.filter (fun pv => pv.2 == max_votes votes)).map Prod.fst

/-- Embedding of `eliminated = random.choice(candidates)` (src/app.py line 39), with
the random draw given by the oracle index. -/
def eliminatedOf (votes : List (String × Nat)) (choice : Nat) : String :=
  (candidates votes).getD (choice % (candidates votes).length) ""

/-- Embedding of `end_voting` (src/app.py lines 22-45) on a found room: no-op when the
game is already inactive, otherwise closes the game and stores the result
string. -/
def end_voting (room : Room) (choice : Nat) : Room :=
  if !room.game_active then room
  else
    let closed := { room with game_active := false }
    if room.votes = [] then
      { closed with result := some "No votes cast. No elimination." }
    else
      let eliminated := eliminatedOf room.votes choice
      if eliminated = room.bhadwa then
        { closed with
          result := some ("Bhadwa " ++ eliminated ++ " was eliminated. Innocents win!") }
      else
        { closed with
          result := some (eliminated ++ " was eliminated. Bhadwa wins.") }

/-- Embedding of `vote` (src/app.py lines 86-113) on a found room: the guard chain is
game over, unknown voter, unknown target, already voted; on success the
voter is marked and `votes[vote_for] = votes.get(vote_for, 0) + 1`. -/
def vote (room : Room) (voter vote_for : String) : Except VoteError Room :=
  if !room.game_active then .error (.votingClosed room.result)
  else
    match lookup room.players voter with
    | none => .error .unknownVoter
    | some st =>
      if (lookup room.players vote_for).isNone then .error .unknownTarget
      else if st.voted_today then .error .alreadyVotedToday
      else .ok { room with
        players := setKey room.players voter { st with voted_today := true },
        votes := setKey room.votes vote_for
                   ((lookup room.votes vote_for).getD 0 + 1) }

/-- Embedding of `reset_votes` (src/app.py lines 116-131) on a found room: rejected
when the game has ended, otherwise clears every `voted_today` flag. -/
def reset_votes (room : Room) : Except VoteError Room :=
  if !room.game_active then .error (.votingClosed room.result)
  else .ok { room with
    players := room.players.map
      (fun p => (p.1, { p.2 with voted_today := false })) }

/-- A sequence of `vote` calls for one fixed target, stopping at the first
failure (used to state the exact-tally property). -/
def castVotes (room : Room) (voters : List String) (target : String) :
    Except VoteError Room :=
  match voters with
  | [] => .ok room
  | v :: vs =>
    match vote room v target with
    | .ok room' => castVotes room' vs target
    | .error e => .error e

/-- Room states the operations can actually produce: freshly created, or
reached from a reachable state by a vote, a day reset, or the timer's
close-resolution. -/
inductive Reachable : Room → Prop where
  | created (room_id : String) (names : List String) (choice : Nat)
      (room : Room) :
      create_room room_id (some names) choice = .ok room → Reachable room
  | voted (room : Room) (voter target : String) (room' : Room) :
      Reachable room → vote room voter target = .ok room' → Reachable room'
  | reset (room room' : Room) :
      Reachable room → reset_votes room = .ok room' → Reachable room'
  | ended (room : Room) (choice : Nat) :
      Reachable room → Reachable (end_voting room choice)

/-! ### Association-list lemmas -/

theorem lookup_setKey_self {α : Type} (l : List (String × α)) (k : String) (v : α) :
    lookup (setKey l k v) k = some v := by
  induction l with
  | nil => simp [setKey, lookup]
  | cons hd tl ih =>
    obtain ⟨hk, hval⟩ := hd
    by_cases h : hk = k
    · simp [setKey, lookup, h]
    · simp [setKey, lookup, h, ih]

theorem lookup_setKey_ne {α : Type} (l : List (String × α)) (k k' : String) (v : α)
    (h : k' ≠ k) : lookup (setKey l k v) k' = lookup l k' := by
  induction l with
  | nil => simp [setKey, lookup, Ne.symm h]
  | cons hd tl ih =>
    obtain ⟨hk, hval⟩ := hd
    by_cases hh : hk = k
    · subst hh
      simp [setKey, lookup, Ne.symm h]
    · simp [setKey, lookup, hh, ih]

theorem lookup_setKey_isSome {α : Type} (l : List (String × α)) (k k' : String) (v : α)
    (h : (lookup (setKey l k v) k').isSome) : k' = k ∨ (lookup l k').isSome := by
  by_cases hk : k' = k
  · exact Or.inl hk
  · right
    rwa [lookup_setKey_ne l k k' v hk] at h

theorem lookup_map_snd {α β : Type} (l : List (String × α)) (f : α → β) (k : String) :
    lookup (l.map (fun p => (p.1, f p.2))) k = (lookup l k).map f := by
  induction l with
  | nil => simp [lookup]
  | cons hd tl ih =>
    obtain ⟨hk, hval⟩ := hd
    by_cases h : hk = k
    · simp [lookup, h]
    · simp [lookup, h, ih]

theorem lookup_map_fun {α : Type} (names : List String) (f : String → α) (k : String) :
    lookup (names.map (fun n => (n, f n))) k
      = if k ∈ names then some (f k) else none := by
  induction names with
  | nil => simp [lookup]
  | cons n tl ih =>
    by_cases h : n = k
    · subst h
      simp [lookup]
    · simp [lookup, h, ih, Ne.symm h]

theorem getD_mod_mem (l : List String) (h : l ≠ []) (i : Nat) :
    l.getD (i % l.length) "" ∈ l := by
  have hlen : 0 < l.length := List.length_pos.mpr h
  have hi : i % l.length < l.length := Nat.mod_lt _ hlen
  rw [List.getD_eq_getElem l "" hi]
  exact List.getElem_mem hi

/-! ### Inversion of a successful `create_room` -/

theorem create_room_ok (room_id : String) (names : List String) (choice : Nat)
    (room : Room) (h : create_room room_id (some names) choice = .ok room) :
    names ≠ [] ∧ names.Nodup ∧ 2 ≤ names.length ∧ names.length ≤ 20 ∧
    room = { players := names.map (fun n =>
               (n, { is_bhadwa := n == names.getD (choice % names.length) "",
                     voted_today := false })),
             bhadwa := names.getD (choice % names.length) "",
             votes := [],
             game_active := true,
             result := none } := by
  simp only [create_room] at h
  split at h
  · exact Except.noConfusion h
  · split at h
    · exact Except.noConfusion h
    · split at h
      · injection h with h'
        refine ⟨?_, ?_, ?_, ?_, h'.symm⟩
        · rename_i hne _ _
          exact fun hnil => hne (Or.inr hnil)
        · assumption
        · rename_i hcnt _
          omega
        · rename_i hcnt _
          omega
      · exact Except.noConfusion h

/-- C1: every successful `create_room` produces a room in which the
`bhadwa` field is one of the given player names, a player's hidden-role
flag is set exactly when that player is the `bhadwa`, and exactly one
player carries the flag. -/
theorem create_room_unique_hidden_role (room_id : String) (names : List String)
    (choice : Nat) (room : Room)
    (h : create_room room_id (some names) choice = .ok room) :
    room.bhadwa ∈ names ∧
    (∀ p ∈ room.players, p.2.is_bhadwa = true ↔ p.1 = room.bhadwa) ∧
    room.players.countP (fun p => p.2.is_bhadwa) = 1 := by
  obtain ⟨hne, hnd, h2, h20, rfl⟩ := create_room_ok room_id names choice room h
  have hmem : names.getD (choice % names.length) "" ∈ names :=
    getD_mod_mem names hne choice
  refine ⟨hmem, ?_, ?_⟩
  · intro p hp
    rw [List.mem_map] at hp
    obtain ⟨n, hn, rfl⟩ := hp
    simp [beq_iff_eq]
  · rw [List.countP_map]
    have hcount := List.count_eq_one_of_mem hnd hmem
    simpa [List.count, Function.comp] using hcount

/-- C1 witness: the claim instantiated on a freshly created two-player
room. -/
theorem create_room_unique_hidden_role_witness :
    ({ players := [("A", ⟨true, false⟩), ("B", ⟨false, false⟩)], bhadwa := "A",
       votes := [], game_active := true, result := none } : Room).bhadwa
      ∈ ["A", "B"] ∧
    ({ players := [("A", ⟨true, false⟩), ("B", ⟨false, false⟩)], bhadwa := "A",
       votes := [], game_active := true, result := none } : Room).players.countP
      (fun p => p.2.is_bhadwa) = 1 := by
  have h := create_room_unique_hidden_role "r" ["A", "B"] 0
    { players := [("A", ⟨true, false⟩), ("B", ⟨false, false⟩)], bhadwa := "A",
      votes := [], game_active := true, result := none } rfl
  exact ⟨h.1, h.2.2⟩

/-! ### The maximum of the tally and the candidate set -/

theorem le_foldl_max_init (l : List Nat) (a : Nat) : a ≤ l.foldl Nat.max a := by
  induction l generalizing a with
  | nil => exact Nat.le_refl a
  | cons x xs ih => exact Nat.le_trans (Nat.le_max_left a x) (ih (Nat.max a x))

theorem le_foldl_max_of_mem (l : List Nat) (a x : Nat) (hx : x ∈ l) :
    x ≤ l.foldl Nat.max a := by
  induction l generalizing a with
  | nil => cases hx
  | cons y ys ih =>
    rcases List.mem_cons.mp hx with h | h
    · subst h
      exact Nat.le_trans (Nat.le_max_right a x) (le_foldl_max_init ys (Nat.max a x))
    · exact ih (Nat.max a y) h

theorem foldl_max_mem (l : List Nat) (a : Nat) :
    l.foldl Nat.max a ∈ l ∨ l.foldl Nat.max a = a := by
  induction l generalizing a with
  | nil => exact Or.inr rfl
  | cons x xs ih =>
    rcases ih (Nat.max a x) with h | h
    · exact Or.inl (List.mem_cons_of_mem x h)
    · rcases Nat.le_total a x with hax | hax
      · left
        have hm : a.max x = x :=
          Nat.le_antisymm (Nat.max_le.mpr ⟨hax, Nat.le_refl x⟩) (Nat.le_max_right a x)
        rw [hm] at h
        rw [List.foldl_cons, hm, h]
        exact List.mem_cons_self x xs
      · right
        have hm : a.max x = a :=
          Nat.le_antisymm (Nat.max_le.mpr ⟨Nat.le_refl a, hax⟩) (Nat.le_max_left a x)
        rw [hm] at h
        rw [List.foldl_cons, hm, h]

theorem max_votes_mem (votes : List (String × Nat)) (h : votes ≠ []) :
    max_votes votes ∈ votes.map Prod.snd := by
  have hne : votes.map Prod.snd ≠ [] := by simpa using h
  rcases foldl_max_mem (votes.map Prod.snd) 0 with hm | h0
  · exact hm
  · obtain ⟨y, hy⟩ := List.exists_mem_of_ne_nil _ hne
    have hy0 : y ≤ 0 := h0 ▸ le_foldl_max_of_mem _ 0 y hy
    have : y = 0 := Nat.le_zero.mp hy0
    subst this
    unfold max_votes
    rw [h0]
    exact hy

theorem mem_candidates (votes : List (String × Nat)) (p : String) :
    p ∈ candidates votes ↔ ∃ v, (p, v) ∈ votes ∧ v = max_votes votes := by
  unfold candidates
  constructor
  · intro hp
    rw [List.mem_map] at hp
    obtain ⟨⟨q, v⟩, hq, rfl⟩ := hp
    rw [List.mem_filter] at hq
    exact ⟨v, hq.1, by simpa using hq.2⟩
  · rintro ⟨v, hv, rfl⟩
    rw [List.mem_map]
    exact ⟨(p, max_votes votes), List.mem_filter.mpr ⟨hv, by simp⟩, rfl⟩

theorem candidates_ne_nil (votes : List (String × Nat)) (h : votes ≠ []) :
    candidates votes ≠ [] := by
  have hm := max_votes_mem votes h
  rw [List.mem_map] at hm
  obtain ⟨⟨p, v⟩, hp, hv⟩ := hm
  have : p ∈ candidates votes := (mem_candidates votes p).mpr ⟨v, hp, hv⟩
  exact List.ne_nil_of_mem this

theorem lookup_of_mem_nodup {α : Type} (l : List (String × α))
    (hnd : (l.map Prod.fst).Nodup) (k : String) (v : α) (h : (k, v) ∈ l) :
    lookup l k = some v := by
  induction l with
  | nil => cases h
  | cons hd tl ih =>
    obtain ⟨k0, v0⟩ := hd
    rw [List.map_cons, List.nodup_cons] at hnd
    rcases List.mem_cons.mp h with heq | htl
    · injection heq with h1 h2
      subst h1; subst h2
      simp [lookup]
    · have hk : k0 ≠ k := by
        intro hkk
        subst hkk
        exact hnd.1 (List.mem_map.mpr ⟨(k0, v), htl, rfl⟩)
      simp [lookup, hk, ih hnd.2 htl]

/-- C2: when a non-empty tally is closed, the eliminated name (for any
value of the random oracle) is one whose vote count equals the maximum
count; a name whose count is strictly below the maximum is never the one
eliminated. -/
theorem end_voting_eliminates_top (votes : List (String × Nat)) (choice : Nat)
    (hne : votes ≠ []) (hnd : (votes.map Prod.fst).Nodup) :
    lookup votes (eliminatedOf votes choice) = some (max_votes votes) ∧
    ∀ p v, lookup votes p = some v → v < max_votes votes →
      eliminatedOf votes choice ≠ p := by
  have hc : candidates votes ≠ [] := candidates_ne_nil votes hne
  have hmemc : eliminatedOf votes choice ∈ candidates votes :=
    getD_mod_mem (candidates votes) hc choice
  obtain ⟨v, hvmem, hveq⟩ := (mem_candidates votes _).mp hmemc
  have hlook : lookup votes (eliminatedOf votes choice) = some (max_votes votes) := by
    rw [← hveq]
    exact lookup_of_mem_nodup votes hnd _ v hvmem
  refine ⟨hlook, ?_⟩
  intro p w hp hlt heq
  rw [heq, hp] at hlook
  injection hlook with hw
  omega

/-- C2 witness: with tally `{A: 3, B: 3, C: 1}` and oracle 0, the
eliminated name holds the maximum count and is not `C`. -/
theorem end_voting_eliminates_top_witness :
    lookup [("A", 3), ("B", 3), ("C", 1)]
        (eliminatedOf [("A", 3), ("B", 3), ("C", 1)] 0)
      = some (max_votes [("A", 3), ("B", 3), ("C", 1)]) ∧
    eliminatedOf [("A", 3), ("B", 3), ("C", 1)] 0 ≠ "C" := by
  have h := end_voting_eliminates_top [("A", 3), ("B", 3), ("C", 1)] 0
    (by decide) (by decide)
  exact ⟨h.1, h.2 "C" 1 (by decide) (by decide)⟩

/-- C3: closing an open room deactivates it, and the stored result is the
no-votes message on an empty tally, the innocents-win message when the
eliminated name is the `bhadwa`, and the bhadwa-wins message otherwise. -/
theorem end_voting_result_strings (room : Room) (choice : Nat)
    (h : room.game_active = true) :
    (end_voting room choice).game_active = false ∧
    (room.votes = [] →
      (end_voting room choice).result = some "No votes cast. No elimination.") ∧
    (room.votes ≠ [] →
      (end_voting room choice).result = some
        (if eliminatedOf room.votes choice = room.bhadwa
         then "Bhadwa " ++ eliminatedOf room.votes choice
                ++ " was eliminated. Innocents win!"
         else eliminatedOf room.votes choice ++ " was eliminated. Bhadwa wins.")) := by
  by_cases hv : room.votes = []
  · refine ⟨?_, ?_, ?_⟩
    · simp [end_voting, h, hv]
    · intro _
      simp [end_voting, h, hv]
    · intro hne
      exact absurd hv hne
  · refine ⟨?_, ?_, ?_⟩
    · simp only [end_voting, h, Bool.not_true, Bool.false_eq_true, if_false, hv,
        if_neg hv]
      split <;> rfl
    · intro hempty
      exact absurd hempty hv
    · intro _
      simp only [end_voting, h, Bool.not_true, Bool.false_eq_true, if_false,
        if_neg hv]
      split <;> rfl

/-- C3 witness: a one-vote room whose eliminated player is the bhadwa. -/
theorem end_voting_result_strings_witness :
    (end_voting { players := [("A", ⟨true, true⟩), ("B", ⟨false, false⟩)],
                  bhadwa := "A", votes := [("A", 1)], game_active := true,
                  result := none } 0).game_active = false ∧
    (end_voting { players := [("A", ⟨true, true⟩), ("B", ⟨false, false⟩)],
                  bhadwa := "A", votes := [("A", 1)], game_active := true,
                  result := none } 0).result
      = some "Bhadwa A was eliminated. Innocents win!" := by
  have h := end_voting_result_strings
    { players := [("A", ⟨true, true⟩), ("B", ⟨false, false⟩)], bhadwa := "A",
      votes := [("A", 1)], game_active := true, result := none } 0 rfl
  refine ⟨h.1, ?_⟩
  rw [h.2.2 (by decide)]
  decide

/-! ### Inversion and construction of a successful `vote` -/

theorem vote_ok (room : Room) (voter target : String) (room' : Room)
    (h : vote room voter target = .ok room') :
    room.game_active = true ∧
    ∃ st, lookup room.players voter = some st ∧ st.voted_today = false ∧
      (lookup room.players target).isSome ∧
      room' = { room with
        players := setKey room.players voter { st with voted_today := true },
        votes := setKey room.votes target
                   ((lookup room.votes target).getD 0 + 1) } := by
  unfold vote at h
  split at h
  · exact Except.noConfusion h
  · rename_i hact'
    have hact : room.game_active = true := by
      by_cases hb : room.game_active = true
      · exact hb
      · exact absurd (by rw [Bool.eq_false_iff.mpr hb]; rfl) hact'
    split at h
    · exact Except.noConfusion h
    · rename_i st hv
      split at h
      · exact Except.noConfusion h
      · rename_i htgt
        split at h
        · exact Except.noConfusion h
        · rename_i hvt
          injection h with h'
          refine ⟨hact, st, hv, Bool.eq_false_iff.mpr hvt, ?_, h'.symm⟩
          cases hl : lookup room.players target with
          | none => exact absurd (by rw [hl]; rfl) htgt
          | some _ => rfl

theorem vote_ok_construct (room : Room) (voter target : String) (st : PlayerState)
    (hact : room.game_active = true) (hv : lookup room.players voter = some st)
    (hnv : st.voted_today = false) (ht : lookup room.players target ≠ none) :
    vote room voter target = .ok { room with
      players := setKey room.players voter { st with voted_today := true },
      votes := setKey room.votes target
                 ((lookup room.votes target).getD 0 + 1) } := by
  unfold vote
  rw [hact]
  simp only [Bool.not_true, Bool.false_eq_true, if_false, hv]
  rw [if_neg (by simpa [Option.isNone_iff_eq_none] using ht), hnv]
  simp

theorem castVotes_ok_tally (voters : List String) (room : Room) (target : String)
    (room' : Room) (h : castVotes room voters target = .ok room') :
    (lookup room'.votes target).getD 0
      = (lookup room.votes target).getD 0 + voters.length ∧
    (voters ≠ [] → (lookup room'.votes target).isSome) := by
  induction voters generalizing room with
  | nil =>
    unfold castVotes at h
    injection h with h'
    subst h'
    exact ⟨rfl, fun hne => absurd rfl hne⟩
  | cons v vs ih =>
    unfold castVotes at h
    cases hvv : vote room v target with
    | error e =>
      rw [hvv] at h
      exact Except.noConfusion h
    | ok r1 =>
      rw [hvv] at h
      obtain ⟨-, st, -, -, -, hr1⟩ := vote_ok room v target r1 hvv
      have htv : lookup r1.votes target
          = some ((lookup room.votes target).getD 0 + 1) := by
        rw [hr1]
        exact lookup_setKey_self room.votes target _
      cases hvs : vs with
      | nil =>
        subst hvs
        unfold castVotes at h
        injection h with h'
        subst h'
        refine ⟨?_, fun _ => ?_⟩
        · rw [htv]
          simp [List.length_cons]
        · rw [htv]
          rfl
      | cons w ws =>
        subst hvs
        have := ih r1 h
        refine ⟨?_, fun _ => this.2 (by simp)⟩
        rw [this.1, htv]
        simp [List.length_cons]
        omega

/-- C4: a successful vote marks the voter as having voted and increments
the target's tally entry by one (creating it at 1); and when every vote in
a sequence for one target succeeds starting from an empty tally, the
target's final count equals the number of voters. -/
theorem vote_tally_exact :
    (∀ room voter target room', vote room voter target = .ok room' →
      (∃ st, lookup room.players voter = some st ∧ st.voted_today = false ∧
        lookup room'.players voter = some { st with voted_today := true }) ∧
      lookup room'.votes target = some ((lookup room.votes target).getD 0 + 1)) ∧
    (∀ room voters target room', room.votes = [] →
      castVotes room voters target = .ok room' → voters ≠ [] →
      lookup room'.votes target = some voters.length) := by
  constructor
  · intro room voter target room' h
    obtain ⟨hact, st, hv, hnv, htgt, hr⟩ := vote_ok room voter target room' h
    refine ⟨⟨st, hv, hnv, ?_⟩, ?_⟩
    · rw [hr]
      exact lookup_setKey_self room.players voter _
    · rw [hr]
      exact lookup_setKey_self room.votes target _
  · intro room voters target room' hempty h hne
    obtain ⟨hgetD, hsome⟩ := castVotes_ok_tally voters room target room' h
    rw [hempty] at hgetD
    simp only [lookup, Option.getD_none, Nat.zero_add] at hgetD
    obtain ⟨x, hx⟩ := Option.isSome_iff_exists.mp (hsome hne)
    rw [hx] at hgetD ⊢
    rw [Option.getD_some] at hgetD
    rw [hgetD]

/-- C4 witness: in a fresh two-player room, votes by "A" and by "B" for
target "B" both succeed and leave the tally entry for "B" at 2. -/
theorem vote_tally_exact_witness :
    lookup [("B", 2)] "B" = some 2 := by
  have h := vote_tally_exact.2
    { players := [("A", ⟨true, false⟩), ("B", ⟨false, false⟩)], bhadwa := "A",
      votes := [], game_active := true, result := none }
    ["A", "B"] "B"
    { players := [("A", ⟨true, true⟩), ("B", ⟨false, true⟩)], bhadwa := "A",
      votes := [("B", 2)], game_active := true, result := none }
    rfl rfl (by decide)
  exact h

theorem lookup_clear_flags (l : List (String × PlayerState)) (k : String) :
    lookup (l.map (fun p => (p.1, { p.2 with voted_today := false }))) k
      = (lookup l k).map (fun st => { st with voted_today := false }) := by
  induction l with
  | nil => simp [lookup]
  | cons hd tl ih =>
    obtain ⟨hk, hval⟩ := hd
    by_cases h : hk = k
    · simp [lookup, h]
    · simp [lookup, h, ih]

theorem vote_already_voted (room : Room) (voter target : String) (st : PlayerState)
    (hact : room.game_active = true) (hv : lookup room.players voter = some st)
    (ht : lookup room.players target ≠ none) (hvt : st.voted_today = true) :
    vote room voter target = .error .alreadyVotedToday := by
  unfold vote
  rw [hact]
  simp only [Bool.not_true, Bool.false_eq_true, if_false, hv]
  rw [if_neg (by simpa [Option.isNone_iff_eq_none] using ht), if_pos hvt]

theorem reset_votes_ok_inv (room room' : Room) (h : reset_votes room = .ok room') :
    room.game_active = true ∧
    room' = { room with players := room.players.map (fun p => (p.1, { p.2 with voted_today := false })) } := by
  unfold reset_votes at h
  split at h
  · exact Except.noConfusion h
  · rename_i hact'
    have hact : room.game_active = true := by
      by_cases hb : room.game_active = true
      · exact hb
      · exact absurd (by rw [Bool.eq_false_iff.mpr hb]; rfl) hact'
    injection h with h'
    exact ⟨hact, h'.symm⟩

theorem reset_votes_ok_of_active (room : Room) (hact : room.game_active = true) :
    reset_votes room = .ok { room with players := room.players.map (fun p => (p.1, { p.2 with voted_today := false })) } := by
  unfold reset_votes
  rw [hact]
  simp

/-- C5 counterexample: after "A" successfully votes in a fresh room, a
second vote by "A" for the unknown name "Z" fails with `unknownTarget`,
not `alreadyVotedToday` — so the one-vote-per-day error does not appear
for arbitrary targets. -/
theorem second_vote_unknown_target_counterexample :
    create_room "r" (some ["A", "B"]) 0
      = .ok { players := [("A", ⟨true, false⟩), ("B", ⟨false, false⟩)],
              bhadwa := "A", votes := [], game_active := true, result := none } ∧
    vote { players := [("A", ⟨true, false⟩), ("B", ⟨false, false⟩)],
           bhadwa := "A", votes := [], game_active := true, result := none }
        "A" "B"
      = .ok { players := [("A", ⟨true, true⟩), ("B", ⟨false, false⟩)],
              bhadwa := "A", votes := [("B", 1)], game_active := true,
              result := none } ∧
    vote { players := [("A", ⟨true, true⟩), ("B", ⟨false, false⟩)],
           bhadwa := "A", votes := [("B", 1)], game_active := true,
           result := none } "A" "Z"
      = .error .unknownTarget ∧
    (Except.error VoteError.unknownTarget : Except VoteError Room)
      ≠ .error .alreadyVotedToday := by
  refine ⟨rfl, rfl, rfl, ?_⟩
  intro hc
  injection hc with hc'
  exact VoteError.noConfusion hc'

/-- C5 (amended): after a successful vote, a second vote by the same
voter for any target that is a player in the room fails with
`alreadyVotedToday`; after a successful day reset the same voter's vote
succeeds again. -/
theorem second_vote_rejected_until_reset (room room' : Room)
    (voter t1 t2 : String) (h : vote room voter t1 = .ok room')
    (ht2 : lookup room.players t2 ≠ none) :
    vote room' voter t2 = .error .alreadyVotedToday ∧
    ∃ room'', reset_votes room' = .ok room'' ∧
      ∃ room''', vote room'' voter t2 = .ok room''' := by
  obtain ⟨hact, st, hv, hnv, htgt, hr⟩ := vote_ok room voter t1 room' h
  have hact' : room'.game_active = true := by rw [hr]; exact hact
  have hv' : lookup room'.players voter = some { st with voted_today := true } := by
    rw [hr]
    exact lookup_setKey_self room.players voter _
  have ht2' : lookup room'.players t2 ≠ none := by
    rw [hr]
    by_cases hk : t2 = voter
    · subst hk
      rw [lookup_setKey_self]
      exact Option.some_ne_none _
    · rw [lookup_setKey_ne room.players voter t2 _ hk]
      exact ht2
  refine ⟨vote_already_voted room' voter t2 _ hact' hv' ht2' rfl, ?_⟩
  refine ⟨_, reset_votes_ok_of_active room' hact', ?_⟩
  have hv'' : lookup (room'.players.map (fun p => (p.1, { p.2 with voted_today := false }))) voter
      = some { st with voted_today := false } := by
    rw [lookup_clear_flags, hv']
    rfl
  have ht2'' : lookup (room'.players.map (fun p => (p.1, { p.2 with voted_today := false }))) t2
      ≠ none := by
    rw [lookup_clear_flags]
    cases hl : lookup room'.players t2 with
    | none => exact absurd hl ht2'
    | some _ => simp [hl]
  exact ⟨_, vote_ok_construct
    { room' with players := room'.players.map (fun p => (p.1, { p.2 with voted_today := false })) }
    voter t2 { st with voted_today := false } hact' hv'' rfl ht2''⟩

/-- C5 witness: the amended claim on a fresh two-player room where "A"
has voted for "B" and tries to vote for "B" again. -/
theorem second_vote_rejected_until_reset_witness :
    vote { players := [("A", ⟨true, true⟩), ("B", ⟨false, false⟩)],
           bhadwa := "A", votes := [("B", 1)], game_active := true,
           result := none } "A" "B"
      = .error .alreadyVotedToday := by
  have h := second_vote_rejected_until_reset
    { players := [("A", ⟨true, false⟩), ("B", ⟨false, false⟩)], bhadwa := "A",
      votes := [], game_active := true, result := none }
    { players := [("A", ⟨true, true⟩), ("B", ⟨false, false⟩)], bhadwa := "A",
      votes := [("B", 1)], game_active := true, result := none }
    "A" "B" "B" rfl (by decide)
  exact h.1

/-- C6: a successful day reset clears every player's voted-today flag and
changes nothing else: the name/hidden-role structure of the player map,
the tally, the bhadwa, the phase and the result are untouched. -/
theorem reset_votes_frame (room room' : Room) (h : reset_votes room = .ok room') :
    (∀ p ∈ room'.players, p.2.voted_today = false) ∧
    room'.players.map (fun p => (p.1, p.2.is_bhadwa))
      = room.players.map (fun p => (p.1, p.2.is_bhadwa)) ∧
    room'.votes = room.votes ∧
    room'.bhadwa = room.bhadwa ∧
    room'.game_active = room.game_active ∧
    room'.result = room.result := by
  obtain ⟨hact, hr⟩ := reset_votes_ok_inv room room' h
  subst hr
  refine ⟨?_, ?_, rfl, rfl, rfl, rfl⟩
  · intro p hp
    simp only [List.mem_map] at hp
    obtain ⟨q, hq, rfl⟩ := hp
    rfl
  · rw [List.map_map]
    rfl

/-- C6 witness: resetting a room where "A" has voted clears the flag and
keeps the tally. -/
theorem reset_votes_frame_witness :
    reset_votes { players := [("A", ⟨true, true⟩), ("B", ⟨false, false⟩)],
                  bhadwa := "A", votes := [("B", 1)], game_active := true,
                  result := none }
      = .ok { players := [("A", ⟨true, false⟩), ("B", ⟨false, false⟩)],
              bhadwa := "A", votes := [("B", 1)], game_active := true,
              result := none } ∧
    ({ players := [("A", ⟨true, false⟩), ("B", ⟨false, false⟩)], bhadwa := "A",
       votes := [("B", 1)], game_active := true, result := none } : Room).votes
      = ({ players := [("A", ⟨true, true⟩), ("B", ⟨false, false⟩)], bhadwa := "A",
           votes := [("B", 1)], game_active := true, result := none } : Room).votes := by
  have h := reset_votes_frame
    { players := [("A", ⟨true, true⟩), ("B", ⟨false, false⟩)], bhadwa := "A",
      votes := [("B", 1)], game_active := true, result := none }
    { players := [("A", ⟨true, false⟩), ("B", ⟨false, false⟩)], bhadwa := "A",
      votes := [("B", 1)], game_active := true, result := none }
    rfl
  exact ⟨rfl, h.2.2.1⟩

/-- C7: on a closed room, both `vote` and `reset_votes` fail with the
voting-closed error carrying the stored result (being errors, neither
produces any new room state). -/
theorem closed_room_rejects (room : Room) (voter target : String)
    (h : room.game_active = false) :
    vote room voter target = .error (.votingClosed room.result) ∧
    reset_votes room = .error (.votingClosed room.result) := by
  constructor
  · unfold vote
    rw [h]
    simp
  · unfold reset_votes
    rw [h]
    simp

/-- C7 witness: a closed room with a stored result rejects both calls
with that result. -/
theorem closed_room_rejects_witness :
    vote { players := [("A", ⟨true, true⟩), ("B", ⟨false, false⟩)],
           bhadwa := "A", votes := [("B", 1)], game_active := false,
           result := some "B was eliminated. Bhadwa wins." } "A" "B"
      = .error (.votingClosed (some "B was eliminated. Bhadwa wins.")) ∧
    reset_votes { players := [("A", ⟨true, true⟩), ("B", ⟨false, false⟩)],
                  bhadwa := "A", votes := [("B", 1)], game_active := false,
                  result := some "B was eliminated. Bhadwa wins." }
      = .error (.votingClosed (some "B was eliminated. Bhadwa wins.")) :=
  closed_room_rejects
    { players := [("A", ⟨true, true⟩), ("B", ⟨false, false⟩)], bhadwa := "A",
      votes := [("B", 1)], game_active := false,
      result := some "B was eliminated. Bhadwa wins." } "A" "B" rfl

/-- C8: with a non-empty room id, `create_room` fails with `invalidInput`
for a missing or empty player list, with `invalidPlayerCount` for any
non-empty list whose length is outside [2, 20], with
`duplicatePlayerName` for an in-range list with a repeated name, and
succeeds on every in-range list of pairwise-distinct names (so in
particular for lengths 2 and 20, and it fails for 0, 1 and 21). -/
theorem create_room_validation (room_id : String) (names : List String)
    (choice : Nat) (hrid : room_id ≠ "") :
    create_room room_id none choice = .error .invalidInput ∧
    (names = [] → create_room room_id (some names) choice = .error .invalidInput) ∧
    (names ≠ [] → names.length < 2 ∨ names.length > 20 →
      create_room room_id (some names) choice = .error .invalidPlayerCount) ∧
    (2 ≤ names.length → names.length ≤ 20 → ¬names.Nodup →
      create_room room_id (some names) choice = .error .duplicatePlayerName) ∧
    (2 ≤ names.length → names.length ≤ 20 → names.Nodup →
      ∃ room, create_room room_id (some names) choice = .ok room) := by
  refine ⟨rfl, ?_, ?_, ?_, ?_⟩
  · intro hnil
    simp [create_room, hnil]
  · intro hne hcnt
    simp only [create_room]
    rw [if_neg (by simp [hrid, hne]), if_pos hcnt]
  · intro h2 h20 hdup
    have hne : names ≠ [] := by
      intro hnil
      rw [hnil] at h2
      simp at h2
    simp only [create_room]
    rw [if_neg (by simp [hrid, hne]), if_neg (by omega), if_neg hdup]
  · intro h2 h20 hnd
    have hne : names ≠ [] := by
      intro hnil
      rw [hnil] at h2
      simp at h2
    simp only [create_room]
    rw [if_neg (by simp [hrid, hne]), if_neg (by omega), if_pos hnd]
    exact ⟨_, rfl⟩

/-- C8 witness: missing list rejected; the distinct pair ["A", "B"] is
not rejected with any of the three validation errors. -/
theorem create_room_validation_witness :
    create_room "r" none 0 = .error .invalidInput ∧
    create_room "r" (some ["A", "B"]) 0 ≠ .error .invalidPlayerCount := by
  have h := create_room_validation "r" ["A", "B"] 0 (by decide)
  refine ⟨h.1, ?_⟩
  obtain ⟨room, hroom⟩ := h.2.2.2.2 (by decide) (by decide) (by decide)
  rw [hroom]
  intro hc
  exact Except.noConfusion hc

/-- C9: self-votes are allowed — any player of an open room who has not
voted today can vote for themselves, the call succeeds, and the vote
lands on their own tally entry, incremented by one. -/
theorem self_vote_allowed (room : Room) (p : String) (st : PlayerState)
    (hact : room.game_active = true) (hp : lookup room.players p = some st)
    (hnv : st.voted_today = false) :
    vote room p p = .ok { room with players := setKey room.players p { st with voted_today := true }, votes := setKey room.votes p ((lookup room.votes p).getD 0 + 1) } ∧
    lookup (setKey room.votes p ((lookup room.votes p).getD 0 + 1)) p
      = some ((lookup room.votes p).getD 0 + 1) := by
  refine ⟨vote_ok_construct room p p st hact hp hnv ?_, ?_⟩
  · rw [hp]
    exact Option.some_ne_none st
  · exact lookup_setKey_self room.votes p _

/-- C9 witness: in a fresh room, "A" votes for "A" and the tally entry
for "A" is created at 1. -/
theorem self_vote_allowed_witness :
    vote { players := [("A", ⟨true, false⟩), ("B", ⟨false, false⟩)],
           bhadwa := "A", votes := [], game_active := true, result := none }
        "A" "A"
      = .ok { players := [("A", ⟨true, true⟩), ("B", ⟨false, false⟩)],
              bhadwa := "A", votes := [("A", 1)], game_active := true,
              result := none } := by
  have h := self_vote_allowed
    { players := [("A", ⟨true, false⟩), ("B", ⟨false, false⟩)], bhadwa := "A",
      votes := [], game_active := true, result := none }
    "A" ⟨true, false⟩ rfl rfl rfl
  exact h.1

theorem end_voting_preserves (room : Room) (choice : Nat) :
    (end_voting room choice).players = room.players ∧
    (end_voting room choice).votes = room.votes := by
  simp only [end_voting]
  split
  · exact ⟨rfl, rfl⟩
  · split
    · exact ⟨rfl, rfl⟩
    · split
      · exact ⟨rfl, rfl⟩
      · exact ⟨rfl, rfl⟩

/-- C10: in every reachable room state, every name with a tally entry is
a player of the room. -/
theorem votes_keys_are_players (room : Room) (h : Reachable room) :
    ∀ k, lookup room.votes k ≠ none → lookup room.players k ≠ none := by
  induction h with
  | created room_id names choice room hcr =>
    intro k hk
    obtain ⟨-, -, -, -, hr⟩ := create_room_ok room_id names choice room hcr
    rw [hr] at hk
    exact absurd rfl hk
  | voted room voter target room' hreach hv ih =>
    intro k hk
    obtain ⟨hact, st, hvv, hnv, htgt, hr⟩ := vote_ok room voter target room' hv
    rw [hr] at hk ⊢
    by_cases hkv : k = voter
    · subst hkv
      rw [lookup_setKey_self]
      exact Option.some_ne_none _
    · rw [lookup_setKey_ne room.players voter k _ hkv]
      by_cases hkt : k = target
      · subst hkt
        intro hnone
        rw [hnone] at htgt
        exact Bool.noConfusion htgt
      · rw [lookup_setKey_ne room.votes target k _ hkt] at hk
        exact ih k hk
  | reset room room' hreach hrs ih =>
    intro k hk
    obtain ⟨hact, hr⟩ := reset_votes_ok_inv room room' hrs
    rw [hr] at hk ⊢
    rw [lookup_clear_flags]
    cases hl : lookup room.players k with
    | none => exact absurd hl (ih k hk)
    | some _ => simp
  | ended room choice hreach ih =>
    intro k hk
    rw [(end_voting_preserves room choice).2] at hk
    rw [(end_voting_preserves room choice).1]
    exact ih k hk

/-- C10 witness: after "A" votes for "B" in a fresh room, "B" has a tally
entry and is indeed a player. -/
theorem votes_keys_are_players_witness :
    lookup ({ players := [("A", ⟨true, true⟩), ("B", ⟨false, false⟩)],
              bhadwa := "A", votes := [("B", 1)], game_active := true,
              result := none } : Room).players "B" ≠ none := by
  refine votes_keys_are_players
    { players := [("A", ⟨true, true⟩), ("B", ⟨false, false⟩)], bhadwa := "A",
      votes := [("B", 1)], game_active := true, result := none }
    (Reachable.voted
      { players := [("A", ⟨true, false⟩), ("B", ⟨false, false⟩)], bhadwa := "A",
        votes := [], game_active := true, result := none }
      "A" "B"
      { players := [("A", ⟨true, true⟩), ("B", ⟨false, false⟩)], bhadwa := "A",
        votes := [("B", 1)], game_active := true, result := none }
      (Reachable.created "r" ["A", "B"] 0
        { players := [("A", ⟨true, false⟩), ("B", ⟨false, false⟩)],
          bhadwa := "A", votes := [], game_active := true, result := none }
        rfl)
      rfl)
    "B" ?_
  intro hc
  exact Option.noConfusion hc

